import Mathlib

/-!
Verification of the `uthreads` cooperative user-space task runtime.

This file gives a shallow embedding of the runtime's data model and
operations (src/runtime.rs, src/channel.rs, src/thread.rs) and proves the
specified properties about them.

Modelling conventions:
* Rust `usize` values (task ids, buffer indices, counters) are `Nat`.
* The raw memory backing a `CircularBuffer` is a total function
  `Nat → α`; `alloc_zeroed` is modelled by the constant `default`
  function (zeroed memory), and `ptr.write`/`ptr.read` by function
  update/application.  A moved-out slot keeps its old contents, exactly
  as the bytes do in the source.
* Operations that can panic in Rust (`unwrap`, `assert!`, `expect`)
  return `Option`, with `none` standing for the panic.
* The assembly context switch transfers control but changes no scheduler
  data; the model keeps the scheduler bookkeeping that surrounds it.
* `Box::into_raw`/`Box::from_raw` round-trip a value through a pointer;
  the model stores the value itself in the `chan_val` slot.
-/

namespace UThreads

/-- Thread states, from src/thread.rs `enum State`. -/
inductive State where
  | Running
  | Ready
  | ChannelBlockSend
  | ChannelBlockRecv
deriving DecidableEq

/-- Circular buffer, from src/channel.rs `struct CircularBuffer`.
`inner` is the backing allocation, `write`/`read` the indices,
`size` the capacity and `full` the flag distinguishing empty from full. -/
structure CircularBuffer (α : Type) where
  inner : Nat → α
  write : Nat
  read : Nat
  size : Nat
  full : Bool

/-- `CircularBuffer::new` (src/channel.rs): zeroed allocation, indices 0,
`full` iff the capacity is 0. -/
def CircularBuffer.new (α : Type) [Inhabited α] (size : Nat) : CircularBuffer α :=
  { inner := fun _ => default, write := 0, read := 0, size := size, full := size == 0 }

/-- `CircularBuffer::len` (src/channel.rs). -/
def CircularBuffer.len (b : CircularBuffer α) : Nat :=
  if b.full then b.size
  else if b.write = b.read then 0
  else if b.read < b.write then b.write - b.read
  else b.size + b.write - b.read

/-- `CircularBuffer::is_empty` (src/channel.rs). -/
def CircularBuffer.isEmpty (b : CircularBuffer α) : Bool :=
  b.len == 0

/-- `CircularBuffer::is_full` (src/channel.rs). -/
def CircularBuffer.isFull (b : CircularBuffer α) : Bool :=
  b.full

/-- `CircularBuffer::inc_write` (src/channel.rs): advance the write index
modulo the capacity and recompute `full`. -/
def CircularBuffer.incWrite (b : CircularBuffer α) : CircularBuffer α :=
  let w := (b.write + 1) % b.size
  { b with write := w, full := w == b.read }

/-- `CircularBuffer::inc_read` (src/channel.rs): advance the read index
modulo the capacity and clear `full`. -/
def CircularBuffer.incRead (b : CircularBuffer α) : CircularBuffer α :=
  { b with read := (b.read + 1) % b.size, full := false }

/-- `CircularBuffer::read` (src/channel.rs): fail if empty, otherwise move
the element at the read index out and advance. -/
def CircularBuffer.readOp (b : CircularBuffer α) : Except Unit α × CircularBuffer α :=
  if b.isEmpty then (Except.error (), b)
  else (Except.ok (b.inner b.read), b.incRead)

/-- `CircularBuffer::write` (src/channel.rs): fail returning the value if
full, otherwise store at the write index and advance. -/
def CircularBuffer.writeOp (b : CircularBuffer α) (v : α) : Except α Unit × CircularBuffer α :=
  if b.isFull then (Except.error v, b)
  else
    (Except.ok (),
      CircularBuffer.incWrite
        { b with inner := fun i => if i = b.write then v else b.inner i })

/-- `BLOCK_QUEUE_SIZE` (src/channel.rs). -/
def BLOCK_QUEUE_SIZE : Nat := 10

/-- Channel, from src/channel.rs `struct Channel`: data buffer plus the
pending-sender and pending-receiver queues. -/
structure Channel (α : Type) where
  buffer : CircularBuffer α
  sendq : CircularBuffer (Nat × α)
  recvq : CircularBuffer Nat

/-- `Channel::new` (src/channel.rs). -/
def Channel.new (α : Type) [Inhabited α] (size : Nat) : Channel α :=
  { buffer := CircularBuffer.new α size
    sendq := CircularBuffer.new (Nat × α) BLOCK_QUEUE_SIZE
    recvq := CircularBuffer.new Nat BLOCK_QUEUE_SIZE }

/-- Task control block, from src/thread.rs `struct Thread`.  The stack and
saved register context are not observable at this level and are omitted;
`chan_val` is the single-slot delivered-value mailbox. -/
structure Thread (α : Type) where
  id : Nat
  state : State
  chan_val : Option α

/-- `BASE_THREAD_ID` (src/main.rs / src/runtime.rs): the root task id. -/
def BASE_THREAD_ID : Nat := 0

/-- Runtime, from src/runtime.rs `struct Runtime`. -/
structure Runtime (α : Type) where
  threads : List (Thread α)
  current : Nat
  count : Nat

/-- `Runtime::new` (src/runtime.rs): a single root thread in state
`Running`, `current` the root id, `count` 1. -/
def Runtime.new (α : Type) : Runtime α :=
  { threads := [{ id := BASE_THREAD_ID, state := State.Running, chan_val := none }]
    current := BASE_THREAD_ID
    count := 1 }

/-- `iter().position(...)` over the thread list: index of the first thread
with the given id. -/
def findPos (id : Nat) : List (Thread α) → Option Nat
  | [] => none
  | t :: ts => if t.id = id then some 0 else (findPos id ts).map (· + 1)

/-- `Runtime::cur_pos` (src/runtime.rs); `none` models the `unwrap` panic. -/
def Runtime.cur_pos (rt : Runtime α) : Option Nat :=
  findPos rt.current rt.threads

/-- `Runtime::get_pos` (src/runtime.rs); `none` models the `unwrap` panic. -/
def Runtime.get_pos (rt : Runtime α) (id : Nat) : Option Nat :=
  findPos id rt.threads

/-- Position and thread of the first thread with a given id (the
`get_pos` + index pattern used throughout src/runtime.rs). -/
def Runtime.findThread (rt : Runtime α) (id : Nat) : Option (Nat × Thread α) :=
  match rt.get_pos id with
  | none => none
  | some i =>
    match rt.threads[i]? with
    | none => none
    | some t => some (i, t)

/-- Overwrite the state of the thread at a list position
(`self.threads[pos].state = s` in src/runtime.rs). -/
def Runtime.setStateAt (rt : Runtime α) (i : Nat) (s : State) : Runtime α :=
  match rt.threads[i]? with
  | none => rt
  | some t => { rt with threads := rt.threads.set i { t with state := s } }

/-- The increment-and-wrap of `Runtime::round_robin` (src/runtime.rs):
`next_pos += 1; if next_pos == len { next_pos = 0 }`. -/
def rrNext (threads : List (Thread α)) (next_pos : Nat) : Nat :=
  if next_pos + 1 = threads.length then 0 else next_pos + 1

/-- The loop body of `Runtime::round_robin` (src/runtime.rs): scan from
`next_pos`, wrapping at the end of the list, for the first `Ready` thread;
give up when the scan returns to `start_pos`.  The fuel argument only
bounds the recursion; `threads.length + 1` steps always suffice. -/
def roundRobinGo (threads : List (Thread α)) (start_pos : Nat) :
    Nat → Nat → Option Nat
  | 0, _ => none
  | fuel + 1, next_pos =>
    match threads[next_pos]? with
    | none => none
    | some t =>
      if t.state = State.Ready then some next_pos
      else if rrNext threads next_pos = start_pos then none
      else roundRobinGo threads start_pos fuel (rrNext threads next_pos)

/-- `Runtime::round_robin` (src/runtime.rs). -/
def Runtime.round_robin (rt : Runtime α) (start_pos : Nat) : Option Nat :=
  roundRobinGo rt.threads start_pos (rt.threads.length + 1) start_pos

/-- `Runtime::yield_thread` (src/runtime.rs): find the current position,
pick a `Ready` successor by round robin (returning `false` with no state
change when there is none), demote the current thread to `Ready` only if
it is `Running`, promote the successor to `Running`, update `current` and
switch.  `none` models the `unwrap` panic in `cur_pos`. -/
def Runtime.yield_thread (rt : Runtime α) : Option (Bool × Runtime α) :=
  match rt.cur_pos with
  | none => none
  | some cur_pos =>
    match rt.round_robin cur_pos with
    | none => some (false, rt)
    | some next_pos =>
      match rt.threads[next_pos]? with
      | none => none
      | some tnext =>
        let rt1 :=
          if (rt.threads[cur_pos]?).map Thread.state = some State.Running
          then rt.setStateAt cur_pos State.Ready
          else rt
        let rt2 := rt1.setStateAt next_pos State.Running
        some (true, { rt2 with current := tnext.id })

/-- `Runtime::run` (src/runtime.rs): `while self.yield_thread() {}`,
with explicit fuel; `none` models non-termination within the fuel or a
panic inside `yield_thread`. -/
def Runtime.run (α : Type) : Nat → Runtime α → Option (Runtime α)
  | 0, _ => none
  | fuel + 1, rt =>
    match rt.yield_thread with
    | none => none
    | some (false, rt') => some rt'
    | some (true, rt') => Runtime.run α fuel rt'

/-- `Runtime::done` (src/runtime.rs): the completion path.  For the root
task it does nothing; otherwise it removes the current thread, selects a
successor by round robin starting at the removal position (wrapped), marks
it `Running`, updates `current` and switches.  `none` models the `unwrap`
panics. -/
def Runtime.done (rt : Runtime α) : Option (Runtime α) :=
  if rt.current ≠ BASE_THREAD_ID then
    match rt.cur_pos with
    | none => none
    | some cur_pos =>
      let threads' := rt.threads.eraseIdx cur_pos
      let rt1 : Runtime α := { rt with threads := threads' }
      let start_pos := if cur_pos = threads'.length then 0 else cur_pos
      match rt1.round_robin start_pos with
      | none => none
      | some next_pos =>
        match threads'[next_pos]? with
        | none => none
        | some tn =>
          some { (rt1.setStateAt next_pos State.Running) with current := tn.id }
  else some rt

/-- `Runtime::create_thread` (src/runtime.rs): append a fresh `Ready`
thread whose id is the next value of `count`, and increment `count`.  The
initial-stack preparation (trampoline, alignment pad, entry function) is
ABI-level and not observable in this model. -/
def Runtime.create_thread (rt : Runtime α) : Runtime α :=
  { rt with
    threads := rt.threads ++ [{ id := rt.count, state := State.Ready, chan_val := none }]
    count := rt.count + 1 }

/-- `Runtime::change_thread_state` (src/runtime.rs); `none` models the
`get_pos` panic. -/
def Runtime.change_thread_state (rt : Runtime α) (id : Nat) (s : State) :
    Option (Runtime α) :=
  (rt.findThread id).map fun it =>
    { rt with threads := rt.threads.set it.1 { it.2 with state := s } }

/-- `Runtime::add_val_to_chan` (src/runtime.rs): place a value in a
thread's delivered slot.  `none` models the `assert_ne!(current, id)`,
the `assert!(chan_val.is_none())` and the `get_pos` panic. -/
def Runtime.add_val_to_chan (rt : Runtime α) (id : Nat) (val : α) :
    Option (Runtime α) :=
  if rt.current = id then none
  else
    match rt.findThread id with
    | none => none
    | some it =>
      if it.2.chan_val.isSome then none
      else some { rt with threads := rt.threads.set it.1 { it.2 with chan_val := some val } }

/-- `Runtime::get_val_from_chan` (src/runtime.rs): `take()` the current
thread's delivered slot.  `none` models the `get_pos` panic. -/
def Runtime.get_val_from_chan (rt : Runtime α) : Option (Option α × Runtime α) :=
  (rt.findThread rt.current).map fun it =>
    (it.2.chan_val, { rt with threads := rt.threads.set it.1 { it.2 with chan_val := none } })

/-- Result of `chan_send`: either the sender kept the turn (`noblock`) or
it parked in `sendq` and yielded (`parked`). -/
inductive SendRes (α : Type) where
  | noblock (st : Runtime α × Channel α)
  | parked (st : Runtime α × Channel α)

/-- The runtime/channel state carried by a `SendRes`. -/
def SendRes.state : SendRes α → Runtime α × Channel α
  | .noblock st => st
  | .parked st => st

/-- `chan_send` (src/runtime.rs): if a receiver is parked in `recvq`, pop
it, put the value in its delivered slot and mark it `Ready` (no yield);
else try the data buffer; else push `(current, val)` onto `sendq`, mark
the current thread `ChannelBlockSend` and yield.  `none` models the
`expect` on a full `sendq` and the panics of the helpers. -/
def chan_send_core (rt : Runtime α) (ch : Channel α) (val : α) : Option (SendRes α) :=
  match ch.recvq.readOp with
  | (Except.ok receiver, recvq') =>
    let ch1 := { ch with recvq := recvq' }
    (rt.add_val_to_chan receiver val).bind fun rta =>
      (rta.change_thread_state receiver State.Ready).map fun rtb =>
        SendRes.noblock (rtb, ch1)
  | (Except.error _, recvq') =>
    let ch1 := { ch with recvq := recvq' }
    match ch1.buffer.writeOp val with
    | (Except.ok _, buffer') => some (SendRes.noblock (rt, { ch1 with buffer := buffer' }))
    | (Except.error val2, _) =>
      let curr := rt.current
      match ch1.sendq.writeOp (curr, val2) with
      | (Except.error _, _) => none
      | (Except.ok _, sendq') =>
        let ch2 := { ch1 with sendq := sendq' }
        (rt.change_thread_state curr State.ChannelBlockSend).bind fun rtc =>
          (rtc.yield_thread).map fun br => SendRes.parked (br.2, ch2)

/-- Result of the entry portion of `chan_recv`: either a value was
obtained without parking (`val`) or the receiver parked in `recvq` and
yielded (`parked`). -/
inductive RecvRes (α : Type) where
  | val (v : α) (st : Runtime α × Channel α)
  | parked (st : Runtime α × Channel α)

/-- The runtime/channel state carried by a `RecvRes`. -/
def RecvRes.state : RecvRes α → Runtime α × Channel α
  | .val _ st => st
  | .parked st => st

/-- The entry portion of `chan_recv` (src/runtime.rs): if a sender is
parked in `sendq`, pop it, mark it `Ready` and return its value; else try
the data buffer; else push the current id onto `recvq`, mark the current
thread `ChannelBlockRecv` and yield.  `none` models the `expect` on a
full `recvq` and the panics of the helpers. -/
def chan_recv_start (rt : Runtime α) (ch : Channel α) : Option (RecvRes α) :=
  match ch.sendq.readOp with
  | (Except.ok sv, sendq') =>
    let ch1 := { ch with sendq := sendq' }
    (rt.change_thread_state sv.1 State.Ready).map fun rta =>
      RecvRes.val sv.2 (rta, ch1)
  | (Except.error _, sendq') =>
    let ch1 := { ch with sendq := sendq' }
    match ch1.buffer.readOp with
    | (Except.ok v, buffer') => some (RecvRes.val v (rt, { ch1 with buffer := buffer' }))
    | (Except.error _, buffer') =>
      let ch2 := { ch1 with buffer := buffer' }
      let curr := rt.current
      match ch2.recvq.writeOp curr with
      | (Except.error _, _) => none
      | (Except.ok _, recvq') =>
        let ch3 := { ch2 with recvq := recvq' }
        (rt.change_thread_state curr State.ChannelBlockRecv).bind fun rtc =>
          (rtc.yield_thread).map fun br => RecvRes.parked (br.2, ch3)

/-- The resumption portion of `chan_recv` (src/runtime.rs): after control
returns from the yield,
`get_val_from_chan().or_else(|| chan.buffer.read().ok()).unwrap()` —
take the delivered slot if it holds a value, otherwise read the buffer;
`none` models the final `unwrap` panic (and the `get_pos` panic). -/
def recv_resume (rt : Runtime α) (ch : Channel α) : Option (α × Runtime α × Channel α) :=
  match rt.get_val_from_chan with
  | none => none
  | some (some v, rt') => some (v, rt', ch)
  | some (none, rt') =>
    match ch.buffer.readOp with
    | (Except.ok v, buffer') => some (v, rt', { ch with buffer := buffer' })
    | (Except.error _, _) => none

/-! ## Scenario S3 (spec §8): buffered channel of capacity 1

Modelled from the spec: the user task bodies of scenario S3 are test code
that is not part of src/ — task T1 performs 10 receives on the channel,
task T2 sends the values 1..15, and the root task runs `run`.  The
interpreter below drives those three tasks through the runtime and
channel operations defined above from the source.  Each interpreter step
executes one atomic action (a channel operation, a yield, or the
completion path) of the thread that `current` designates; channel
operations that park switch `current` inside themselves, exactly as the
source does. -/

/-- Where task T1 (the receiver) is in its code: about to call
`chan_recv` (`call`), parked inside `chan_recv` waiting to resume
(`resume`), its entry function returned (`ret`), or removed (`gone`). -/
inductive T1Phase where
  | call
  | resume
  | ret
  | gone
deriving DecidableEq

/-- Where task T2 (the sender) is in its code. -/
inductive T2Phase where
  | call
  | resume
  | ret
  | gone
deriving DecidableEq

/-- Configuration of the scenario-S3 system: runtime and channel state,
both tasks' program positions, T1's count of completed receives, T2's
next value to send, the list of values T1 has observed, and whether
`run` has returned. -/
structure S3Config where
  rt : Runtime Nat
  ch : Channel Nat
  t1 : T1Phase
  t1count : Nat
  t2 : T2Phase
  t2next : Nat
  recvd : List Nat
  halted : Bool

/-- One atomic action of the thread designated by `current`:
the root task runs one `yield_thread` of its `run` loop (halting the
system when it returns `false`); T1 performs one receive action or its
completion; T2 performs one send action or its completion. -/
def s3step (c : S3Config) : Option S3Config :=
  if c.halted then some c
  else if c.rt.current = BASE_THREAD_ID then
    match c.rt.yield_thread with
    | none => none
    | some (false, rt') => some { c with rt := rt', halted := true }
    | some (true, rt') => some { c with rt := rt' }
  else if c.rt.current = 1 then
    match c.t1 with
    | T1Phase.call =>
      if c.t1count = 10 then some { c with t1 := T1Phase.ret }
      else
        match chan_recv_start c.rt c.ch with
        | none => none
        | some (RecvRes.val v st) =>
          some { c with rt := st.1, ch := st.2, recvd := c.recvd ++ [v],
                        t1count := c.t1count + 1 }
        | some (RecvRes.parked st) =>
          some { c with rt := st.1, ch := st.2, t1 := T1Phase.resume }
    | T1Phase.resume =>
      match recv_resume c.rt c.ch with
      | none => none
      | some (v, rt', ch') =>
        some { c with rt := rt', ch := ch', recvd := c.recvd ++ [v],
                      t1count := c.t1count + 1, t1 := T1Phase.call }
    | T1Phase.ret =>
      match c.rt.done with
      | none => none
      | some rt' => some { c with rt := rt', t1 := T1Phase.gone }
    | T1Phase.gone => none
  else if c.rt.current = 2 then
    match c.t2 with
    | T2Phase.call =>
      if 15 < c.t2next then some { c with t2 := T2Phase.ret }
      else
        match chan_send_core c.rt c.ch c.t2next with
        | none => none
        | some (SendRes.noblock st) =>
          some { c with rt := st.1, ch := st.2, t2next := c.t2next + 1 }
        | some (SendRes.parked st) =>
          some { c with rt := st.1, ch := st.2, t2 := T2Phase.resume }
    | T2Phase.resume =>
      some { c with t2next := c.t2next + 1, t2 := T2Phase.call }
    | T2Phase.ret =>
      match c.rt.done with
      | none => none
      | some rt' => some { c with rt := rt', t2 := T2Phase.gone }
    | T2Phase.gone => none
  else none

/-- Iterate `s3step` with fuel, stopping once `run` has returned. -/
def s3iter : Nat → S3Config → Option S3Config
  | 0, c => some c
  | fuel + 1, c =>
    if c.halted then some c
    else (s3step c).bind (s3iter fuel)

/-- The initial S3 configuration: a fresh runtime with T1 and T2 spawned
(ids 1 and 2), a capacity-1 channel, both tasks at their first action. -/
def s3init : S3Config :=
  { rt := ((Runtime.new Nat).create_thread).create_thread
    ch := Channel.new Nat 1
    t1 := T1Phase.call
    t1count := 0
    t2 := T2Phase.call
    t2next := 1
    recvd := []
    halted := false }

/-- The final S3 configuration, after enough steps for the system to halt. -/
def s3final : Option S3Config :=
  s3iter 100 s3init

/-! ## A concrete run reaching a receive resumption point (for C5)

A receiver parks on an empty capacity-1 channel; the sender then sends
twice before the receiver is scheduled again, so at the receiver's
resumption point both its delivered slot (value 1) and the data buffer
(value 2) hold a value. -/

/-- Root plus two spawned threads (receiver id 1, sender id 2) and a
capacity-1 channel. -/
def c5st0 : Runtime Nat × Channel Nat :=
  (((Runtime.new Nat).create_thread).create_thread, Channel.new Nat 1)

/-- The root task yields; thread 1 (the receiver) runs. -/
def c5s1 : Option (Runtime Nat × Channel Nat) :=
  (c5st0.1.yield_thread).map fun br => (br.2, c5st0.2)

/-- Thread 1 calls receive on the empty channel and parks; the yield
inside the receive switches to thread 2 (the sender). -/
def c5s2 : Option (Runtime Nat × Channel Nat) :=
  c5s1.bind fun st =>
    (chan_recv_start st.1 st.2).bind fun r =>
      match r with
      | RecvRes.parked st' => some st'
      | RecvRes.val _ _ => none

/-- Thread 2 sends 1: the recvq fast path delivers it to thread 1's
slot and marks thread 1 `Ready`; the sender keeps the turn. -/
def c5s3 : Option (Runtime Nat × Channel Nat) :=
  c5s2.bind fun st =>
    (chan_send_core st.1 st.2 1).bind fun r =>
      match r with
      | SendRes.noblock st' => some st'
      | SendRes.parked _ => none

/-- Thread 2 sends 2: the recvq is now empty, so the value goes into the
data buffer; the sender keeps the turn. -/
def c5s4 : Option (Runtime Nat × Channel Nat) :=
  c5s3.bind fun st =>
    (chan_send_core st.1 st.2 2).bind fun r =>
      match r with
      | SendRes.noblock st' => some st'
      | SendRes.parked _ => none

/-- Thread 2 yields; the root task runs. -/
def c5s5 : Option (Runtime Nat × Channel Nat) :=
  c5s4.bind fun st => (st.1.yield_thread).map fun br => (br.2, st.2)

/-- The root task yields; thread 1 resumes inside its receive. -/
def c5s6 : Option (Runtime Nat × Channel Nat) :=
  c5s5.bind fun st => (st.1.yield_thread).map fun br => (br.2, st.2)

/-! ## An abstract operation language over a `CircularBuffer` (for C4) -/

/-- A single buffer operation: a write of a value or a read. -/
inductive BufOp (α : Type) where
  | wr (v : α)
  | rd

/-- The buffer state after performing one operation. -/
def applyBufOp (b : CircularBuffer α) : BufOp α → CircularBuffer α
  | BufOp.wr v => (b.writeOp v).2
  | BufOp.rd => (b.readOp).2

/-- The buffer state after a sequence of operations. -/
def applyBufOps (b : CircularBuffer α) (ops : List (BufOp α)) : CircularBuffer α :=
  ops.foldl applyBufOp b

/-- The operation fails on the given buffer and leaves it unchanged:
a write returns the value to the caller, a read returns the unit error.
Since `writeOp`/`readOp` only invoke `incWrite`/`incRead` — the site of
the `% size` computations — on their success branches, this failure shape
also certifies that those computations are not reached. -/
def bufOpFails (b : CircularBuffer α) : BufOp α → Prop
  | BufOp.wr v => b.writeOp v = (Except.error v, b)
  | BufOp.rd => b.readOp = (Except.error (), b)

/-! ## Helper lemmas -/

theorem roundRobinGo_sound {threads : List (Thread α)} {start fuel pos np : Nat}
    (h : roundRobinGo threads start fuel pos = some np) :
    ∃ t, threads[np]? = some t ∧ t.state = State.Ready := by
  induction fuel generalizing pos with
  | zero => simp [roundRobinGo] at h
  | succ fuel ih =>
    rw [roundRobinGo] at h
    cases hg : threads[pos]? with
    | none => rw [hg] at h; exact absurd h (by simp)
    | some t =>
      rw [hg] at h
      dsimp only at h
      by_cases hs : t.state = State.Ready
      · rw [if_pos hs] at h
        injection h with e
        subst e
        exact ⟨t, hg, hs⟩
      · rw [if_neg hs] at h
        by_cases hw : rrNext threads pos = start
        · rw [if_pos hw] at h
          exact absurd h (by simp)
        · rw [if_neg hw] at h
          exact ih h

theorem round_robin_sound {rt : Runtime α} {start np : Nat}
    (h : rt.round_robin start = some np) :
    ∃ t, rt.threads[np]? = some t ∧ t.state = State.Ready :=
  roundRobinGo_sound h

theorem set_same {l : List β} {i : Nat} {a : β} (h : l[i]? = some a) :
    l.set i a = l := by
  induction l generalizing i with
  | nil => simp at h
  | cons hd tl ih =>
    cases i with
    | zero =>
      rw [List.getElem?_cons_zero] at h
      injection h with e
      rw [List.set_cons_zero, e]
    | succ i =>
      rw [List.getElem?_cons_succ] at h
      rw [List.set_cons_succ, ih h]

theorem findPos_set {l : List (Thread α)} {i : Nat} {t t' : Thread α} (id0 : Nat)
    (hg : l[i]? = some t) (hid : t'.id = t.id) :
    findPos id0 (l.set i t') = findPos id0 l := by
  induction l generalizing i with
  | nil => simp at hg
  | cons hd tl ih =>
    cases i with
    | zero =>
      rw [List.getElem?_cons_zero] at hg
      injection hg with e
      subst e
      rw [List.set_cons_zero]
      simp [findPos, hid]
    | succ i =>
      rw [List.getElem?_cons_succ] at hg
      rw [List.set_cons_succ]
      simp [findPos, ih hg]

theorem findThread_spec {rt : Runtime α} {id0 i : Nat} {t : Thread α}
    (h : rt.findThread id0 = some (i, t)) :
    findPos id0 rt.threads = some i ∧ rt.threads[i]? = some t := by
  unfold Runtime.findThread Runtime.get_pos at h
  cases hp : findPos id0 rt.threads with
  | none => rw [hp] at h; exact absurd h (by simp)
  | some j =>
    rw [hp] at h
    dsimp only at h
    cases hg : rt.threads[j]? with
    | none => rw [hg] at h; exact absurd h (by simp)
    | some u =>
      rw [hg] at h
      dsimp only at h
      injection h with e
      have e1 : j = i := congrArg Prod.fst e
      have e2 : u = t := congrArg Prod.snd e
      subst e1
      subst e2
      exact ⟨rfl, hg⟩

theorem findThread_after_set {rt : Runtime α} {id0 i : Nat} {t : Thread α}
    (t' : Thread α)
    (h : rt.findThread id0 = some (i, t)) (hid : t'.id = t.id) :
    Runtime.findThread { rt with threads := rt.threads.set i t' } id0 = some (i, t') := by
  obtain ⟨hpos, hget⟩ := findThread_spec h
  have hset : (rt.threads.set i t')[i]? = some t' := by
    rw [List.getElem?_set_self', hget]
    rfl
  unfold Runtime.findThread Runtime.get_pos
  simp only [findPos_set id0 hget hid, hpos, hset]

theorem readOp_ok_isEmpty {b b' : CircularBuffer α} {v : α}
    (h : b.readOp = (Except.ok v, b')) : b.isEmpty = false := by
  cases hb : b.isEmpty
  · rfl
  · rw [CircularBuffer.readOp, hb] at h
    simp at h

theorem readOp_error_eq {b b' : CircularBuffer α} {e : Unit}
    (h : b.readOp = (Except.error e, b')) : b.isEmpty = true ∧ b' = b := by
  cases hb : b.isEmpty
  · rw [CircularBuffer.readOp, hb] at h
    simp at h
  · rw [CircularBuffer.readOp, hb] at h
    simp only [if_pos rfl] at h
    exact ⟨rfl, (congrArg Prod.snd h).symm⟩

theorem writeOp_ok_isFull {b b' : CircularBuffer α} {v : α} {u : Unit}
    (h : b.writeOp v = (Except.ok u, b')) : b.full = false := by
  cases hb : b.full
  · rfl
  · rw [CircularBuffer.writeOp] at h
    rw [CircularBuffer.isFull, hb] at h
    simp at h

theorem writeOp_error_eq {b b' : CircularBuffer α} {v w : α}
    (h : b.writeOp v = (Except.error w, b')) : b.full = true ∧ b' = b := by
  cases hb : b.full
  · rw [CircularBuffer.writeOp] at h
    rw [CircularBuffer.isFull, hb] at h
    simp at h
  · rw [CircularBuffer.writeOp] at h
    rw [CircularBuffer.isFull, hb] at h
    simp only [if_pos rfl] at h
    exact ⟨rfl, (congrArg Prod.snd h).symm⟩

/-! ## Theorems -/

/-- C1, counterexample: in scenario S3 the receiver T1 does *not* observe
the values 1 through 10 in that order.  `chan_recv` consults `sendq`
before the data buffer, so once a sender is parked the receiver obtains
the parked (newer) value before the buffered (older) one. -/
theorem s3_order_cex :
    s3final.map S3Config.recvd ≠ some [1, 2, 3, 4, 5, 6, 7, 8, 9, 10] := by
  decide

/-- C1, amended: in scenario S3 (receiver T1 spawned first, sender T2
second, round-robin interleaving), T1 observes exactly the ten values
1..10, each once, but in the order 1,3,2,4,6,5,7,9,8,10; afterwards T2 is
left `ChannelBlockSend` with the pair (2, 12) pending in `sendq` and the
value 11 still in the data buffer, `recvq` is empty, T1 has been removed
by the completion path, and `run` returns via scheduler exhaustion. -/
theorem s3_outcome :
    s3final.map S3Config.recvd = some [1, 3, 2, 4, 6, 5, 7, 9, 8, 10]
  ∧ s3final.map (fun c => c.rt.threads.map fun t => (t.id, t.state)) =
      some [(0, State.Running), (2, State.ChannelBlockSend)]
  ∧ s3final.map (fun c => ((c.ch.sendq.readOp).1, c.ch.sendq.len)) =
      some (Except.ok (2, 12), 1)
  ∧ s3final.map (fun c => ((c.ch.buffer.readOp).1, c.ch.buffer.len)) =
      some (Except.ok 11, 1)
  ∧ s3final.map (fun c => c.ch.recvq.len) = some 0
  ∧ s3final.map S3Config.halted = some true := by
  exact ⟨rfl, rfl, rfl, rfl, rfl, rfl⟩

/-- C7: a failed `CircularBuffer` operation leaves the buffer fully
unchanged — a write on a full buffer fails returning exactly the written
value with the whole state (indices, flag, contents, hence also length)
unchanged, and a read on an empty buffer fails with the state
unchanged. -/
theorem failed_buffer_ops_unchanged (α : Type) :
    (∀ (b : CircularBuffer α) (v : α), b.isFull = true →
        b.writeOp v = (Except.error v, b))
  ∧ (∀ b : CircularBuffer α, b.isEmpty = true →
        b.readOp = (Except.error (), b)) := by
  constructor
  · intro b v h
    simp [CircularBuffer.writeOp, h]
  · intro b h
    simp [CircularBuffer.readOp, h]

/-- C7, witness: the failed operations on the concrete full (capacity-0)
and empty buffers. -/
theorem failed_buffer_ops_unchanged_witness :
    (CircularBuffer.new Nat 0).writeOp 5 = (Except.error 5, CircularBuffer.new Nat 0)
  ∧ (CircularBuffer.new Nat 1).readOp = (Except.error (), CircularBuffer.new Nat 1) :=
  ⟨(failed_buffer_ops_unchanged Nat).1 (CircularBuffer.new Nat 0) 5 rfl,
   (failed_buffer_ops_unchanged Nat).2 (CircularBuffer.new Nat 1) rfl⟩

/-- C4: a capacity-0 `CircularBuffer` is full from construction; on any
size-0 full buffer every write fails returning the value and every read
fails, both leaving the state unchanged; consequently, along any sequence
of operations starting from the capacity-0 buffer, the state stays the
freshly constructed one and every operation fails — so the success
branches containing the `% size` computations of `inc_write`/`inc_read`
(divisions by zero when the capacity is 0) are never reached. -/
theorem capacity_zero_buffer (α : Type) [Inhabited α] :
    (CircularBuffer.new α 0).full = true
  ∧ (∀ (b : CircularBuffer α) (v : α), b.size = 0 → b.full = true →
        b.writeOp v = (Except.error v, b) ∧ b.readOp = (Except.error (), b))
  ∧ (∀ ops : List (BufOp α),
        applyBufOps (CircularBuffer.new α 0) ops = CircularBuffer.new α 0)
  ∧ (∀ (ops : List (BufOp α)) (op : BufOp α),
        bufOpFails (applyBufOps (CircularBuffer.new α 0) ops) op) := by
  have hfails : ∀ (b : CircularBuffer α) (v : α), b.size = 0 → b.full = true →
      b.writeOp v = (Except.error v, b) ∧ b.readOp = (Except.error (), b) := by
    intro b v hsz hfull
    constructor
    · simp [CircularBuffer.writeOp, CircularBuffer.isFull, hfull]
    · simp [CircularBuffer.readOp, CircularBuffer.isEmpty, CircularBuffer.len, hfull, hsz]
  have hstay : ∀ ops : List (BufOp α),
      applyBufOps (CircularBuffer.new α 0) ops = CircularBuffer.new α 0 := by
    intro ops
    induction ops with
    | nil => rfl
    | cons op ops ih =>
      have hstep : applyBufOp (CircularBuffer.new α 0) op = CircularBuffer.new α 0 := by
        cases op with
        | wr v =>
          have := (hfails (CircularBuffer.new α 0) v rfl rfl).1
          simp [applyBufOp, this]
        | rd =>
          have := (hfails (CircularBuffer.new α 0) default rfl rfl).2
          simp [applyBufOp, this]
      calc applyBufOps (CircularBuffer.new α 0) (op :: ops)
          = applyBufOps (applyBufOp (CircularBuffer.new α 0) op) ops := rfl
        _ = applyBufOps (CircularBuffer.new α 0) ops := by rw [hstep]
        _ = CircularBuffer.new α 0 := ih
  refine ⟨rfl, hfails, hstay, ?_⟩
  intro ops op
  rw [hstay ops]
  cases op with
  | wr v => exact (hfails (CircularBuffer.new α 0) v rfl rfl).1
  | rd => exact (hfails (CircularBuffer.new α 0) default rfl rfl).2

/-- C4, witness: the capacity-0 buffer over `Nat`, with a concrete
operation sequence after which a write and a read both still fail. -/
theorem capacity_zero_buffer_witness :
    (CircularBuffer.new Nat 0).full = true
  ∧ applyBufOps (CircularBuffer.new Nat 0) [BufOp.wr 7, BufOp.rd] = CircularBuffer.new Nat 0
  ∧ bufOpFails (applyBufOps (CircularBuffer.new Nat 0) [BufOp.wr 7, BufOp.rd]) (BufOp.wr 3) :=
  ⟨(capacity_zero_buffer Nat).1,
   (capacity_zero_buffer Nat).2.2.1 [BufOp.wr 7, BufOp.rd],
   (capacity_zero_buffer Nat).2.2.2 [BufOp.wr 7, BufOp.rd] (BufOp.wr 3)⟩

/-- C8: when `round_robin` finds no `Ready` successor, `yield_thread`
returns `false` and leaves the runtime — task list, every task's state,
and `current` — completely unchanged, and `run`, which loops on
`yield_thread`, then returns normally with the runtime unchanged. -/
theorem yield_no_ready_frame (α : Type) (rt : Runtime α) (cp : Nat)
    (h1 : rt.cur_pos = some cp) (h2 : rt.round_robin cp = none) :
    rt.yield_thread = some (false, rt)
  ∧ ∀ fuel : Nat, Runtime.run α (fuel + 1) rt = some rt := by
  have hy : rt.yield_thread = some (false, rt) := by
    unfold Runtime.yield_thread
    rw [h1]
    simp [h2]
  refine ⟨hy, fun fuel => ?_⟩
  unfold Runtime.run
  rw [hy]

/-- C8, witness: a fresh runtime whose only thread is the running root
has no `Ready` successor; `yield_thread` returns `false` without change
and `run` returns at once. -/
theorem yield_no_ready_frame_witness :
    (Runtime.new Nat).yield_thread = some (false, Runtime.new Nat)
  ∧ Runtime.run Nat 1 (Runtime.new Nat) = some (Runtime.new Nat) :=
  ⟨(yield_no_ready_frame Nat (Runtime.new Nat) 0 rfl rfl).1,
   (yield_no_ready_frame Nat (Runtime.new Nat) 0 rfl rfl).2 0⟩

/-- C10: invoking the completion path `done` while the current task is
the root task (id 0) is a no-op — the returned runtime is the input one,
so the task list, `current`, `count` and every task's state are
unchanged (and no switch target is ever computed). -/
theorem done_root_noop (α : Type) (rt : Runtime α)
    (h : rt.current = BASE_THREAD_ID) :
    rt.done = some rt := by
  simp [Runtime.done, h]

/-- C10, witness: the completion path on the fresh runtime, whose current
task is the root. -/
theorem done_root_noop_witness :
    (Runtime.new Nat).done = some (Runtime.new Nat) :=
  done_root_noop Nat (Runtime.new Nat) rfl

/-- C2: when the current task is already blocked (`ChannelBlockSend` or
`ChannelBlockRecv`, as after a channel park) and a `Ready` successor
exists, `yield_thread` switches to that successor — marking it `Running`
and updating `current` to its id — while the blocked task's entry in the
task list is left exactly as it was (no demotion to `Ready`). -/
theorem yield_preserves_blocked (α : Type) (rt : Runtime α) (cp np : Nat)
    (t tn : Thread α)
    (h1 : rt.cur_pos = some cp)
    (h2 : rt.threads[cp]? = some t)
    (h3 : t.state = State.ChannelBlockSend ∨ t.state = State.ChannelBlockRecv)
    (h4 : rt.round_robin cp = some np)
    (h5 : rt.threads[np]? = some tn) :
    rt.yield_thread =
      some (true,
        { rt with
            threads := rt.threads.set np { tn with state := State.Running },
            current := tn.id })
  ∧ (rt.threads.set np { tn with state := State.Running })[cp]? = some t := by
  obtain ⟨t', hg', hready⟩ := round_robin_sound h4
  rw [h5] at hg'
  injection hg' with e
  subst e
  have hne : np ≠ cp := by
    intro e
    subst e
    rw [h2] at h5
    injection h5 with e2
    subst e2
    rcases h3 with h3 | h3 <;> rw [h3] at hready <;> exact absurd hready (by simp)
  have hcond : ¬ (rt.threads[cp]?).map Thread.state = some State.Running := by
    rw [h2]
    rcases h3 with h3 | h3 <;> simp [h3]
  constructor
  · unfold Runtime.yield_thread
    rw [h1]
    dsimp only
    rw [h4]
    dsimp only
    rw [h5]
    dsimp only
    rw [if_neg hcond]
    unfold Runtime.setStateAt
    rw [h5]
  · rw [List.getElem?_set_ne hne, h2]

/-- A concrete runtime whose current thread (id 1) is parked in a
receive: root `Ready`, thread 1 `ChannelBlockRecv`, thread 2 `Ready`. -/
def c2rt : Runtime Nat :=
  { threads := [{ id := 0, state := State.Ready, chan_val := none },
                { id := 1, state := State.ChannelBlockRecv, chan_val := none },
                { id := 2, state := State.Ready, chan_val := none }]
    current := 1
    count := 3 }

/-- C2, witness: yielding from `c2rt` switches to the `Ready` thread 2
and leaves thread 1 blocked. -/
theorem yield_preserves_blocked_witness :
    c2rt.yield_thread =
      some (true,
        { c2rt with
            threads := c2rt.threads.set 2
              { id := 2, state := State.Running, chan_val := none },
            current := 2 })
  ∧ (c2rt.threads.set 2 { id := 2, state := State.Running, chan_val := none })[1]? =
      some { id := 1, state := State.ChannelBlockRecv, chan_val := none } :=
  yield_preserves_blocked Nat c2rt 1 2
    { id := 1, state := State.ChannelBlockRecv, chan_val := none }
    { id := 2, state := State.Ready, chan_val := none }
    rfl rfl (Or.inr rfl) rfl rfl

/-- C6: a send on a channel whose `recvq` is nonempty pops the head
receiver, places the value into that receiver's delivered slot (under the
assertions that the receiver is not the sender and that the slot is
empty), marks the receiver `Ready`, and returns `noblock` — the sender
does not yield, `current` and `count` are unchanged, and the channel's
data buffer and `sendq` are untouched (only `recvq` is replaced by its
popped version). -/
theorem send_recvq_fastpath (α : Type) (rt : Runtime α) (ch : Channel α) (v : α)
    (receiver : Nat) (recvq' : CircularBuffer Nat) (i : Nat) (t : Thread α)
    (h1 : ch.recvq.readOp = (Except.ok receiver, recvq'))
    (h2 : ¬ rt.current = receiver)
    (h3 : rt.findThread receiver = some (i, t))
    (h4 : t.chan_val = none) :
    chan_send_core rt ch v =
      some (SendRes.noblock
        ({ rt with
            threads := rt.threads.set i
              { t with state := State.Ready, chan_val := some v } },
         { ch with recvq := recvq' })) := by
  unfold chan_send_core
  rw [h1]
  dsimp only
  unfold Runtime.add_val_to_chan
  rw [if_neg h2, h3]
  dsimp only
  rw [h4]
  dsimp only [Option.isSome]
  rw [if_neg (by simp)]
  rw [Option.some_bind]
  unfold Runtime.change_thread_state
  rw [findThread_after_set { t with chan_val := some v } h3 rfl]
  rw [Option.map_some']
  dsimp only
  rw [List.set_set]
  rw [Option.map_some']

/-- Scenario S5's runtime: receiver thread 1 parked in a receive, sender
thread 2 running, root `Ready`. -/
def s5rt : Runtime Nat :=
  { threads := [{ id := 0, state := State.Ready, chan_val := none },
                { id := 1, state := State.ChannelBlockRecv, chan_val := none },
                { id := 2, state := State.Running, chan_val := none }]
    current := 2
    count := 3 }

/-- Scenario S5's channel: empty capacity-1 buffer, empty `sendq`, and
`recvq` holding the parked receiver id 1. -/
def s5ch : Channel Nat :=
  { buffer := CircularBuffer.new Nat 1
    sendq := CircularBuffer.new (Nat × Nat) BLOCK_QUEUE_SIZE
    recvq := ((CircularBuffer.new Nat BLOCK_QUEUE_SIZE).writeOp 1).2 }

/-- C6, witness (scenario S5): thread 2 sends 7 on `s5ch`.  The fast path
delivers 7 to thread 1's slot and marks it `Ready`; afterwards the data
buffer, `recvq` and `sendq` are all empty. -/
theorem send_recvq_fastpath_witness :
    chan_send_core s5rt s5ch 7 =
      some (SendRes.noblock
        ({ s5rt with
            threads := s5rt.threads.set 1
              { id := 1, state := State.Ready, chan_val := some 7 } },
         { s5ch with recvq := (s5ch.recvq.readOp).2 }))
  ∧ (s5ch.buffer).len = 0
  ∧ ((s5ch.recvq.readOp).2).len = 0
  ∧ (s5ch.sendq).len = 0 :=
  ⟨send_recvq_fastpath Nat s5rt s5ch 7
      1 ((s5ch.recvq.readOp).2)
      1 { id := 1, state := State.ChannelBlockRecv, chan_val := none }
      rfl (by decide) rfl rfl,
   by decide, by decide, by decide⟩

/-- C5, counterexample: in the concrete run `c5s6` thread 1 parked in
receive (sendq and buffer empty at park time), and at its resumption
point its delivered slot holds 1 *and* the channel buffer holds 2 — both
of the two sources yield a value, yet no assertion fires and the
resumption returns the delivered value 1.  So "exactly one of the two
yields a value" is false: the code only asserts that at least one does. -/
theorem recv_resume_exactly_one_cex :
    c5s6.map (fun st => (st.1.findThread st.1.current).map fun it => it.2.chan_val)
      = some (some (some 1))
  ∧ c5s6.map (fun st => st.2.buffer.isEmpty) = some false
  ∧ c5s6.map (fun st => (st.2.buffer.readOp).1) = some (Except.ok 2)
  ∧ (c5s6.bind fun st => recv_resume st.1 st.2).map (fun r => r.1) = some 1 :=
  ⟨rfl, rfl, rfl, rfl⟩

/-- C5, amended: upon resumption after a receive park, the value is
obtained by taking the current task's delivered slot if it holds a value,
otherwise by reading the channel buffer; at least one of the two must
yield a value — otherwise the final `unwrap` assertion fires (modelled as
`none`) — and that value is returned (the delivered slot taking
precedence, with the buffer untouched in that case). -/
theorem recv_resume_delivered_first (α : Type) :
    (∀ (rt : Runtime α) (ch : Channel α) (i : Nat) (t : Thread α) (v : α),
       rt.findThread rt.current = some (i, t) → t.chan_val = some v →
       recv_resume rt ch =
         some (v, { rt with threads := rt.threads.set i { t with chan_val := none } }, ch))
  ∧ (∀ (rt : Runtime α) (ch : Channel α) (i : Nat) (t : Thread α) (v : α)
       (buffer' : CircularBuffer α),
       rt.findThread rt.current = some (i, t) → t.chan_val = none →
       ch.buffer.readOp = (Except.ok v, buffer') →
       recv_resume rt ch =
         some (v, { rt with threads := rt.threads.set i { t with chan_val := none } },
               { ch with buffer := buffer' }))
  ∧ (∀ (rt : Runtime α) (ch : Channel α) (i : Nat) (t : Thread α),
       rt.findThread rt.current = some (i, t) → t.chan_val = none →
       ch.buffer.isEmpty = true →
       recv_resume rt ch = none) := by
  refine ⟨?_, ?_, ?_⟩
  · intro rt ch i t v hft hcv
    unfold recv_resume Runtime.get_val_from_chan
    rw [hft, Option.map_some']
    dsimp only
    rw [hcv]
  · intro rt ch i t v buffer' hft hcv hread
    unfold recv_resume Runtime.get_val_from_chan
    rw [hft, Option.map_some']
    dsimp only
    rw [hcv]
    dsimp only
    rw [hread]
  · intro rt ch i t hft hcv hempty
    unfold recv_resume Runtime.get_val_from_chan
    rw [hft, Option.map_some']
    dsimp only
    rw [hcv]
    dsimp only
    rw [CircularBuffer.readOp, hempty]
    simp

/-- A concrete runtime whose current thread (id 1) has the value 4 in its
delivered slot. -/
def c5wrt : Runtime Nat :=
  { threads := [{ id := 0, state := State.Ready, chan_val := none },
                { id := 1, state := State.Running, chan_val := some 4 }]
    current := 1
    count := 2 }

/-- C5, witness: resumption on `c5wrt` returns the delivered 4, clears
the slot, and leaves the channel untouched. -/
theorem recv_resume_delivered_first_witness :
    recv_resume c5wrt (Channel.new Nat 1) =
      some (4,
        { c5wrt with
            threads := c5wrt.threads.set 1
              { id := 1, state := State.Running, chan_val := none } },
        Channel.new Nat 1) :=
  (recv_resume_delivered_first Nat).1 c5wrt (Channel.new Nat 1) 1
    { id := 1, state := State.Running, chan_val := some 4 } 4 rfl rfl

/-- The channel invariants of spec §3: (1) a nonempty `sendq` implies the
data buffer is full, (2) a nonempty `recvq` implies the data buffer is
empty, (3) `sendq` and `recvq` are never both nonempty. -/
def ChanInv (ch : Channel α) : Prop :=
  (ch.sendq.isEmpty = false → ch.buffer.full = true)
  ∧ (ch.recvq.isEmpty = false → ch.buffer.isEmpty = true)
  ∧ ¬(ch.sendq.isEmpty = false ∧ ch.recvq.isEmpty = false)

/-- C3: the channel invariants are preserved by every channel operation:
by a send (any of its three paths, including the park), by the entry
portion of a receive (any of its three paths, including the park), and by
the resumption of a parked receive.  For the resumption the delivered
slot of the resuming task holds a value — which is how every resumption
happens in the runtime, since only `chan_send`'s fast path makes a parked
receiver `Ready`, right after filling its slot — so the channel is left
untouched. -/
theorem chan_invariants (α : Type) :
    (∀ (rt : Runtime α) (ch : Channel α) (v : α) (res : SendRes α),
       ChanInv ch → chan_send_core rt ch v = some res → ChanInv res.state.2)
  ∧ (∀ (rt : Runtime α) (ch : Channel α) (res : RecvRes α),
       ChanInv ch → chan_recv_start rt ch = some res → ChanInv res.state.2)
  ∧ (∀ (rt : Runtime α) (ch : Channel α) (i : Nat) (t : Thread α) (w : α)
       (out : α × Runtime α × Channel α),
       ChanInv ch → rt.findThread rt.current = some (i, t) → t.chan_val = some w →
       recv_resume rt ch = some out → ChanInv out.2.2) := by
  refine ⟨?_, ?_, ?_⟩
  · -- send preserves the invariants
    intro rt ch v res hinv hrun
    obtain ⟨inv1, inv2, inv3⟩ := hinv
    unfold chan_send_core at hrun
    cases hrq : ch.recvq.readOp with
    | mk e recvq' =>
      rw [hrq] at hrun
      cases e with
      | ok receiver =>
        -- recvq fast path: only recvq is popped
        dsimp only at hrun
        have hne : ch.recvq.isEmpty = false := readOp_ok_isEmpty hrq
        have hsendq : ch.sendq.isEmpty = true := by
          cases hB : ch.sendq.isEmpty
          · exact absurd ⟨hB, hne⟩ inv3
          · rfl
        cases ha : rt.add_val_to_chan receiver v with
        | none => rw [ha] at hrun; exact absurd hrun (by simp)
        | some rta =>
          rw [ha, Option.some_bind] at hrun
          cases hc : rta.change_thread_state receiver State.Ready with
          | none => rw [hc] at hrun; exact absurd hrun (by simp)
          | some rtb =>
            rw [hc, Option.map_some'] at hrun
            injection hrun with e2
            subst e2
            dsimp only [SendRes.state]
            refine ⟨?_, ?_, ?_⟩
            · intro hs
              rw [hsendq] at hs
              exact absurd hs (by simp)
            · intro _
              exact inv2 hne
            · intro hboth
              rw [hsendq] at hboth
              exact absurd hboth.1 (by simp)
      | error u =>
        dsimp only at hrun
        obtain ⟨hre, hrq_eq⟩ := readOp_error_eq hrq
        subst hrq_eq
        cases hw : ch.buffer.writeOp v with
        | mk ew buffer' =>
          rw [hw] at hrun
          cases ew with
          | ok uu =>
            -- buffered path: buffer gains one element
            dsimp only at hrun
            injection hrun with e2
            subst e2
            have hnotfull : ch.buffer.full = false := writeOp_ok_isFull hw
            have hsendq : ch.sendq.isEmpty = true := by
              cases hB : ch.sendq.isEmpty
              · exact absurd (inv1 hB) (by simp [hnotfull])
              · rfl
            dsimp only [SendRes.state]
            refine ⟨?_, ?_, ?_⟩
            · intro hs
              rw [hsendq] at hs
              exact absurd hs (by simp)
            · intro hr
              rw [hre] at hr
              exact absurd hr (by simp)
            · intro hboth
              rw [hsendq] at hboth
              exact absurd hboth.1 (by simp)
          | error w =>
            -- park path: the sender is pushed onto sendq
            dsimp only at hrun
            have hfull : ch.buffer.full = true := (writeOp_error_eq hw).1
            cases hsw : ch.sendq.writeOp (rt.current, w) with
            | mk esw sendq' =>
              rw [hsw] at hrun
              cases esw with
              | error _ => exact absurd hrun (by simp)
              | ok _ =>
                dsimp only at hrun
                cases hcs : rt.change_thread_state rt.current State.ChannelBlockSend with
                | none => rw [hcs] at hrun; exact absurd hrun (by simp)
                | some rtc =>
                  rw [hcs, Option.some_bind] at hrun
                  cases hy : rtc.yield_thread with
                  | none => rw [hy] at hrun; exact absurd hrun (by simp)
                  | some br =>
                    rw [hy, Option.map_some'] at hrun
                    injection hrun with e2
                    subst e2
                    dsimp only [SendRes.state]
                    refine ⟨?_, ?_, ?_⟩
                    · intro _
                      exact hfull
                    · intro hr
                      rw [hre] at hr
                      exact absurd hr (by simp)
                    · intro hboth
                      rw [hre] at hboth
                      exact absurd hboth.2 (by simp)
  · -- receive entry preserves the invariants
    intro rt ch res hinv hrun
    obtain ⟨inv1, inv2, inv3⟩ := hinv
    unfold chan_recv_start at hrun
    cases hsq : ch.sendq.readOp with
    | mk e sendq' =>
      rw [hsq] at hrun
      cases e with
      | ok sv =>
        -- sendq fast path: only sendq is popped
        dsimp only at hrun
        have hse : ch.sendq.isEmpty = false := readOp_ok_isEmpty hsq
        have hrecvq : ch.recvq.isEmpty = true := by
          cases hB : ch.recvq.isEmpty
          · exact absurd ⟨hse, hB⟩ inv3
          · rfl
        cases hc : rt.change_thread_state sv.1 State.Ready with
        | none => rw [hc] at hrun; exact absurd hrun (by simp)
        | some rta =>
          rw [hc, Option.map_some'] at hrun
          injection hrun with e2
          subst e2
          dsimp only [RecvRes.state]
          refine ⟨?_, ?_, ?_⟩
          · intro _
            exact inv1 hse
          · intro hr
            rw [hrecvq] at hr
            exact absurd hr (by simp)
          · intro hboth
            rw [hrecvq] at hboth
            exact absurd hboth.2 (by simp)
      | error u =>
        dsimp only at hrun
        obtain ⟨hsqe, hsq_eq⟩ := readOp_error_eq hsq
        subst hsq_eq
        cases hbr : ch.buffer.readOp with
        | mk eb buffer' =>
          rw [hbr] at hrun
          cases eb with
          | ok v =>
            -- buffered path: buffer loses one element
            dsimp only at hrun
            injection hrun with e2
            subst e2
            have hbne : ch.buffer.isEmpty = false := readOp_ok_isEmpty hbr
            have hrecvq : ch.recvq.isEmpty = true := by
              cases hB : ch.recvq.isEmpty
              · exact absurd (inv2 hB) (by simp [hbne])
              · rfl
            dsimp only [RecvRes.state]
            refine ⟨?_, ?_, ?_⟩
            · intro hs
              rw [hsqe] at hs
              exact absurd hs (by simp)
            · intro hr
              rw [hrecvq] at hr
              exact absurd hr (by simp)
            · intro hboth
              rw [hsqe] at hboth
              exact absurd hboth.1 (by simp)
          | error _ =>
            -- park path: the receiver is pushed onto recvq
            dsimp only at hrun
            obtain ⟨hbe, hb_eq⟩ := readOp_error_eq hbr
            subst hb_eq
            cases hrw : ch.recvq.writeOp rt.current with
            | mk erw recvq' =>
              rw [hrw] at hrun
              cases erw with
              | error _ => exact absurd hrun (by simp)
              | ok _ =>
                dsimp only at hrun
                cases hcs : rt.change_thread_state rt.current State.ChannelBlockRecv with
                | none => rw [hcs] at hrun; exact absurd hrun (by simp)
                | some rtc =>
                  rw [hcs, Option.some_bind] at hrun
                  cases hy : rtc.yield_thread with
                  | none => rw [hy] at hrun; exact absurd hrun (by simp)
                  | some br =>
                    rw [hy, Option.map_some'] at hrun
                    injection hrun with e2
                    subst e2
                    dsimp only [RecvRes.state]
                    refine ⟨?_, ?_, ?_⟩
                    · intro hs
                      rw [hsqe] at hs
                      exact absurd hs (by simp)
                    · intro _
                      exact hbe
                    · intro hboth
                      rw [hsqe] at hboth
                      exact absurd hboth.1 (by simp)
  · -- resumption with a delivered value leaves the channel untouched
    intro rt ch i t w out hinv hft hcv hrun
    unfold recv_resume Runtime.get_val_from_chan at hrun
    rw [hft, Option.map_some'] at hrun
    dsimp only at hrun
    rw [hcv] at hrun
    injection hrun with e2
    subst e2
    exact hinv

/-- C3, witness: a send of 5 on the fresh empty capacity-1 channel takes
the buffered path; the invariants hold afterwards. -/
theorem chan_invariants_witness :
    ChanInv (SendRes.state (SendRes.noblock
      (Runtime.new Nat,
       { Channel.new Nat 1 with
           buffer := ((Channel.new Nat 1).buffer.writeOp 5).2 }))).2 :=
  (chan_invariants Nat).1 (Runtime.new Nat) (Channel.new Nat 1) 5 _
    ⟨by decide, by decide, by decide⟩ rfl

/-! ## Reachable runtime states and id uniqueness (for C9) -/

/-- Id well-formedness of a runtime: the ids of the live threads are
pairwise distinct, and every live id is below `count`. -/
def IdsOk (rt : Runtime α) : Prop :=
  (rt.threads.map Thread.id).Nodup
  ∧ ∀ n ∈ rt.threads.map Thread.id, n < rt.count

/-- One runtime-state step: any of the operations of src/runtime.rs that
mutate the thread list, `current` or `count`.  The channel operations
`chan_send`/`chan_recv` touch the runtime only through
`change_thread_state`, `add_val_to_chan`, `get_val_from_chan` and
`yield_thread`, so every runtime mutation of the source is covered. -/
inductive RtStep : Runtime α → Runtime α → Prop where
  | create (rt : Runtime α) : RtStep rt rt.create_thread
  | yieldStep (rt : Runtime α) (b : Bool) (rt' : Runtime α) :
      rt.yield_thread = some (b, rt') → RtStep rt rt'
  | doneStep (rt rt' : Runtime α) : rt.done = some rt' → RtStep rt rt'
  | chgState (rt : Runtime α) (id0 : Nat) (s : State) (rt' : Runtime α) :
      rt.change_thread_state id0 s = some rt' → RtStep rt rt'
  | addVal (rt : Runtime α) (id0 : Nat) (v : α) (rt' : Runtime α) :
      rt.add_val_to_chan id0 v = some rt' → RtStep rt rt'
  | getVal (rt : Runtime α) (r : Option α) (rt' : Runtime α) :
      rt.get_val_from_chan = some (r, rt') → RtStep rt rt'

/-- A runtime state reachable from the fresh runtime by runtime steps. -/
def Reachable (rt : Runtime α) : Prop :=
  Relation.ReflTransGen RtStep (Runtime.new α) rt

theorem ids_set {l : List (Thread α)} {i : Nat} {t : Thread α} (t' : Thread α)
    (hg : l[i]? = some t) (hid : t'.id = t.id) :
    (l.set i t').map Thread.id = l.map Thread.id := by
  rw [List.map_set]
  have hm : (l.map Thread.id)[i]? = some t.id := by
    rw [List.getElem?_map, hg]
    rfl
  rw [hid, set_same hm]

theorem ids_setStateAt (rt : Runtime α) (i : Nat) (s : State) :
    (rt.setStateAt i s).threads.map Thread.id = rt.threads.map Thread.id
    ∧ (rt.setStateAt i s).count = rt.count := by
  unfold Runtime.setStateAt
  cases hg : rt.threads[i]? with
  | none => exact ⟨rfl, rfl⟩
  | some t => exact ⟨ids_set { t with state := s } hg rfl, rfl⟩

theorem yield_ids {rt : Runtime α} {b : Bool} {rt' : Runtime α}
    (h : rt.yield_thread = some (b, rt')) :
    rt'.threads.map Thread.id = rt.threads.map Thread.id ∧ rt'.count = rt.count := by
  unfold Runtime.yield_thread at h
  cases hc : rt.cur_pos with
  | none => rw [hc] at h; exact absurd h (by simp)
  | some cp =>
    rw [hc] at h
    dsimp only at h
    cases hr : rt.round_robin cp with
    | none =>
      rw [hr] at h
      dsimp only at h
      injection h with e
      have e2 : rt = rt' := congrArg Prod.snd e
      subst e2
      exact ⟨rfl, rfl⟩
    | some np =>
      rw [hr] at h
      dsimp only at h
      cases hg : rt.threads[np]? with
      | none => rw [hg] at h; exact absurd h (by simp)
      | some tn =>
        rw [hg] at h
        dsimp only at h
        by_cases hcnd : (rt.threads[cp]?).map Thread.state = some State.Running
        · rw [if_pos hcnd] at h
          injection h with e
          have e2 : _ = rt' := congrArg Prod.snd e
          subst e2
          exact ⟨((ids_setStateAt (rt.setStateAt cp State.Ready) np State.Running).1).trans
                   (ids_setStateAt rt cp State.Ready).1,
                 ((ids_setStateAt (rt.setStateAt cp State.Ready) np State.Running).2).trans
                   (ids_setStateAt rt cp State.Ready).2⟩
        · rw [if_neg hcnd] at h
          injection h with e
          have e2 : _ = rt' := congrArg Prod.snd e
          subst e2
          exact ⟨(ids_setStateAt rt np State.Running).1,
                 (ids_setStateAt rt np State.Running).2⟩

theorem done_ids {rt rt' : Runtime α} (h : rt.done = some rt') :
    (rt'.threads.map Thread.id).Sublist (rt.threads.map Thread.id)
    ∧ rt'.count = rt.count := by
  unfold Runtime.done at h
  by_cases hc : rt.current ≠ BASE_THREAD_ID
  · rw [if_pos hc] at h
    cases hp : rt.cur_pos with
    | none => rw [hp] at h; exact absurd h (by simp)
    | some cp =>
      rw [hp] at h
      dsimp only at h
      cases hr : Runtime.round_robin { rt with threads := rt.threads.eraseIdx cp }
          (if cp = (rt.threads.eraseIdx cp).length then 0 else cp) with
      | none => rw [hr] at h; exact absurd h (by simp)
      | some np =>
        rw [hr] at h
        dsimp only at h
        cases hg : (rt.threads.eraseIdx cp)[np]? with
        | none => rw [hg] at h; exact absurd h (by simp)
        | some tn =>
          rw [hg] at h
          dsimp only at h
          injection h with e
          subst e
          have hsub : ((rt.threads.eraseIdx cp).map Thread.id).Sublist
              (rt.threads.map Thread.id) :=
            List.Sublist.map Thread.id (List.eraseIdx_sublist rt.threads cp)
          have hids := ids_setStateAt { rt with threads := rt.threads.eraseIdx cp } np
            State.Running
          exact ⟨hids.1 ▸ hsub, hids.2⟩
  · rw [if_neg hc] at h
    injection h with e
    subst e
    exact ⟨List.Sublist.refl _, rfl⟩

theorem chg_ids {rt : Runtime α} {id0 : Nat} {s : State} {rt' : Runtime α}
    (h : rt.change_thread_state id0 s = some rt') :
    rt'.threads.map Thread.id = rt.threads.map Thread.id ∧ rt'.count = rt.count := by
  unfold Runtime.change_thread_state at h
  cases hf : rt.findThread id0 with
  | none => rw [hf] at h; exact absurd h (by simp)
  | some it =>
    obtain ⟨i, t⟩ := it
    rw [hf, Option.map_some'] at h
    injection h with e
    subst e
    obtain ⟨_, hget⟩ := findThread_spec hf
    exact ⟨ids_set { t with state := s } hget rfl, rfl⟩

theorem addv_ids {rt : Runtime α} {id0 : Nat} {v : α} {rt' : Runtime α}
    (h : rt.add_val_to_chan id0 v = some rt') :
    rt'.threads.map Thread.id = rt.threads.map Thread.id ∧ rt'.count = rt.count := by
  unfold Runtime.add_val_to_chan at h
  by_cases hcur : rt.current = id0
  · rw [if_pos hcur] at h; exact absurd h (by simp)
  · rw [if_neg hcur] at h
    cases hf : rt.findThread id0 with
    | none => rw [hf] at h; exact absurd h (by simp)
    | some it =>
      obtain ⟨i, t⟩ := it
      rw [hf] at h
      dsimp only at h
      by_cases hsome : t.chan_val.isSome = true
      · rw [if_pos hsome] at h; exact absurd h (by simp)
      · rw [if_neg hsome] at h
        injection h with e
        subst e
        obtain ⟨_, hget⟩ := findThread_spec hf
        exact ⟨ids_set { t with chan_val := some v } hget rfl, rfl⟩

theorem getv_ids {rt : Runtime α} {r : Option α} {rt' : Runtime α}
    (h : rt.get_val_from_chan = some (r, rt')) :
    rt'.threads.map Thread.id = rt.threads.map Thread.id ∧ rt'.count = rt.count := by
  unfold Runtime.get_val_from_chan at h
  cases hf : rt.findThread rt.current with
  | none => rw [hf] at h; exact absurd h (by simp)
  | some it =>
    obtain ⟨i, t⟩ := it
    rw [hf, Option.map_some'] at h
    injection h with e
    have e2 : _ = rt' := congrArg Prod.snd e
    subst e2
    obtain ⟨_, hget⟩ := findThread_spec hf
    exact ⟨ids_set { t with chan_val := none } hget rfl, rfl⟩

theorem idsOk_of_eq {rt rt' : Runtime α}
    (hids : rt'.threads.map Thread.id = rt.threads.map Thread.id)
    (hcnt : rt'.count = rt.count) (hok : IdsOk rt) : IdsOk rt' := by
  obtain ⟨hnd, hlt⟩ := hok
  refine ⟨hids ▸ hnd, ?_⟩
  intro n hn
  rw [hids] at hn
  rw [hcnt]
  exact hlt n hn

theorem idsOk_step {rt rt' : Runtime α} (h : RtStep rt rt') (hok : IdsOk rt) :
    IdsOk rt' := by
  obtain ⟨hnd, hlt⟩ := hok
  cases h with
  | create =>
    unfold Runtime.create_thread IdsOk
    dsimp only
    rw [List.map_append, List.map_singleton]
    constructor
    · rw [List.nodup_append]
      refine ⟨hnd, List.nodup_singleton _, ?_⟩
      intro n hn hn'
      rw [List.mem_singleton] at hn'
      dsimp only at hn'
      subst hn'
      exact absurd (hlt _ hn) (by simp)
    · intro n hn
      rcases List.mem_append.mp hn with hn | hn
      · exact Nat.lt_trans (hlt n hn) (Nat.lt_succ_self _)
      · rw [List.mem_singleton] at hn
        dsimp only at hn
        subst hn
        exact Nat.lt_succ_self _
  | yieldStep b rt2 hy =>
    exact idsOk_of_eq (yield_ids hy).1 (yield_ids hy).2 ⟨hnd, hlt⟩
  | doneStep rt2 hd =>
    obtain ⟨hsub, hcnt⟩ := done_ids hd
    refine ⟨List.Nodup.sublist hsub hnd, ?_⟩
    intro n hn
    rw [hcnt]
    exact hlt n (hsub.subset hn)
  | chgState id0 s rt2 hc =>
    exact idsOk_of_eq (chg_ids hc).1 (chg_ids hc).2 ⟨hnd, hlt⟩
  | addVal id0 v rt2 ha =>
    exact idsOk_of_eq (addv_ids ha).1 (addv_ids ha).2 ⟨hnd, hlt⟩
  | getVal r rt2 hg =>
    exact idsOk_of_eq (getv_ids hg).1 (getv_ids hg).2 ⟨hnd, hlt⟩

theorem step_count {rt rt' : Runtime α} (h : RtStep rt rt') :
    rt.count ≤ rt'.count := by
  cases h with
  | create => exact Nat.le_succ _
  | yieldStep b rt2 hy => exact Nat.le_of_eq (yield_ids hy).2.symm
  | doneStep rt2 hd => exact Nat.le_of_eq (done_ids hd).2.symm
  | chgState id0 s rt2 hc => exact Nat.le_of_eq (chg_ids hc).2.symm
  | addVal id0 v rt2 ha => exact Nat.le_of_eq (addv_ids ha).2.symm
  | getVal r rt2 hg => exact Nat.le_of_eq (getv_ids hg).2.symm

/-- C9: in every reachable runtime state all live tasks have pairwise
distinct ids, each bounded by `count`; `create_thread` (spawn) appends a
fresh `Ready` task whose id is the current value of `count` and
increments `count`; and `count` never decreases across any runtime step
(in particular it is monotonically non-decreasing across spawns). -/
theorem reachable_unique_ids (α : Type) :
    (∀ rt : Runtime α, Reachable rt → IdsOk rt)
  ∧ (∀ rt : Runtime α,
       rt.create_thread.threads =
         rt.threads ++ [{ id := rt.count, state := State.Ready, chan_val := none }]
       ∧ rt.create_thread.count = rt.count + 1)
  ∧ (∀ rt rt' : Runtime α, RtStep rt rt' → rt.count ≤ rt'.count) := by
  refine ⟨?_, fun rt => ⟨rfl, rfl⟩, fun rt rt' h => step_count h⟩
  intro rt hreach
  induction hreach with
  | refl =>
    refine ⟨?_, ?_⟩
    · exact List.nodup_singleton _
    · intro n hn
      simp [Runtime.new] at hn
      subst hn
      exact Nat.zero_lt_one
  | tail hsteps hstep ih => exact idsOk_step hstep ih

/-- C9, witness: the runtime after one spawn is reachable and
id-well-formed, and that spawn did not decrease `count`. -/
theorem reachable_unique_ids_witness :
    IdsOk ((Runtime.new Nat).create_thread)
  ∧ (Runtime.new Nat).count ≤ (Runtime.new Nat).create_thread.count :=
  ⟨(reachable_unique_ids Nat).1 ((Runtime.new Nat).create_thread)
      (Relation.ReflTransGen.single (RtStep.create (Runtime.new Nat))),
   (reachable_unique_ids Nat).2.2 (Runtime.new Nat) ((Runtime.new Nat).create_thread)
      (RtStep.create (Runtime.new Nat))⟩

end UThreads
